import Mathlib

/-!
Verification of the paxy compiler core (assembler, loop/function lowering,
calling-convention normalizer, operator resolver) against its specification.

The Python source is shallowly embedded: each Python function becomes an
executable Lean definition over an `Item` sum type mirroring the IR
(`paxy/compiler/ir.py`), with lists for Python lists, `Except` for raised
`SyntaxError`/`RuntimeError`, and a `py313 : Bool` parameter wherever the
source branches on `sys.version_info >= (3, 13)`.  `bytecode.Label` objects
(identity-compared) are modelled as `Nat` ids handed out by a counter.
-/

namespace Paxy

/-- Argument of a bytecode instruction (`Instr.arg` in the Python source).
`unset` is the no-argument sentinel; `ident` mirrors the `Ident` marker
subclass of `str` (isinstance-str checks accept both `str` and `ident`);
`pair` is the `(bool, name)` tuple produced by `_lg` for `LOAD_GLOBAL`;
`label` is a `bytecode.Label` reference by id; `codeObj` stands for the
opaque compiled code object produced by the external `bytecode` library's
`to_code` (never inspected by the assembler). -/
inductive Arg where
  | unset
  | int (n : Int)
  | bool (b : Bool)
  | str (s : String)
  | ident (s : String)
  | pair (b : Bool) (s : String)
  | label (id : Nat)
  | codeObj
  deriving DecidableEq, Repr

/-- Tag of the internal tuple placeholders made by `_first_pass_rewrite`
(`__CJUMP__`, `__UJUMP__`, `__NJUMP__`; the bare `__JUMP__` form has its
own `Item` constructor). -/
inductive JTag where
  | cjump
  | ujump
  | njump
  deriving DecidableEq, Repr

/-- One element of an assembler working list.  This is the union of the
parser IR (`ParsedItem` in `paxy/compiler/ir.py`), real bytecode items
(`Instr`, `Label`) and the tuple placeholders threaded between passes.
Python keeps these in one heterogeneous `list`; the sum type makes the
same mixing explicit. -/
inductive Item where
  | instr (name : String) (arg : Arg) (lineno : Option Int)
  | label (id : Nat)
  | phJump (target : String) (lineno : Option Int)
  | phTagJump (tag : JTag) (opcode : String) (target : String) (lineno : Option Int)
  | labelDecl (name : String) (lineno : Int)
  | jumpRef (target : String) (lineno : Int)
  | namedJump (opcode : String) (target : String) (lineno : Int)
  | funcDef (name : String) (params : List String) (body : List Item) (lineno : Int)
  | returnMarker (hasValue : Bool) (lineno : Int)
  | rangeBlock (var : String) (start : Arg) (stop : Arg) (body : List Item) (lineno : Int)
  deriving Repr

/-- Errors raised by the assembler (Python `SyntaxError` / `RuntimeError`). -/
inductive AsmErr where
  | duplicateLabel (name : String)
  | goUndefined (name : String)
  | jumpUndefined (name : String)
  | retOutsideSub
  | internal (tag : String)
  deriving DecidableEq, Repr

/-! Small helpers shared between passes (`paxy/compiler/ir.py`,
`Assembler._as_name`, isinstance checks). -/

/-- Model of `COND_JUMP_OPS` from `paxy/compiler/ir.py`. -/
def condJumpOps : List String := ["POP_JUMP_IF_FALSE", "POP_JUMP_IF_TRUE"]

/-- Model of `UNCOND_JUMP_FIXED` from `paxy/compiler/ir.py`. -/
def uncondJumpFixed : List String := ["JUMP_FORWARD", "JUMP_BACKWARD"]

/-- Python `isinstance(arg, (str, Ident))` (recall `Ident` subclasses `str`). -/
def argIsStrLike : Arg → Bool
  | .str _ => true
  | .ident _ => true
  | _ => false

/-- Model of `Assembler._as_name`: identifier argument as a plain string.  Only ever
called behind an `argIsStrLike` guard in the source; other cases are
unreachable. -/
def as_name : Arg → String
  | .str s => s
  | .ident s => s
  | _ => ""

/-- Python `arg == 0` on instruction arguments (used by the loop-body
splice filter).  Python equality makes `0 == 0` and `False == 0` true;
no other `Arg` form compares equal to the integer 0. -/
def pyEqZero : Arg → Bool
  | .int n => n == 0
  | .bool b => !b
  | _ => false

/-- Model of `_lg(name)`: the `(version >= 3.13, name)` tuple for `LOAD_GLOBAL`. -/
def lg (py313 : Bool) (name : String) : Arg := .pair py313 name

/-- Is this item a real `Instr`? -/
def Item.isInstr : Item → Bool
  | .instr _ _ _ => true
  | _ => false

/-- Is this item an `Instr` named `PUSH_NULL`? -/
def isPushNull : Item → Bool
  | .instr "PUSH_NULL" _ _ => true
  | _ => false

/-- Is this item one of the internal tuple placeholders
(`isinstance(obj, tuple)` in the source)? -/
def Item.isPlaceholderTuple : Item → Bool
  | .phJump _ _ => true
  | .phTagJump _ _ _ _ => true
  | _ => false

/-- Is this item a real bytecode item (`Instr` or `Label`), i.e. a member of
the `ResolvedItem = Union[Instr, Label]` type that `Assembler.resolve` is
documented to return? -/
def Item.isConcrete : Item → Bool
  | .instr _ _ _ => true
  | .label _ => true
  | _ => false

/-! Loop lowering: `Assembler._lower_rangeblock_to_stream` and
`Assembler._emit_token_load_instrs`. -/

/-- Model of `Assembler._emit_token_load_instrs`: load a parsed token either as a
name (`LOAD_FAST` inside a function, `LOAD_NAME` at module level) or as a
constant. -/
def emit_token_load_instrs (inFn : Bool) (tok : Arg) (lineno : Int) : List Item :=
  match tok with
  | .ident s =>
      if inFn then [.instr "LOAD_FAST" (.str s) (some lineno)]
      else [.instr "LOAD_NAME" (.str s) (some lineno)]
  | t => [.instr "LOAD_CONST" t (some lineno)]

/-- Model of `DROP_NAMES` from `_lower_rangeblock_to_stream`. -/
def dropNames : List String := ["RESUME", "RETURN_VALUE", "RETURN_CONST"]

/-- The body-splice loop of `_lower_rangeblock_to_stream` (step 3): drop
`Instr`s named in `DROP_NAMES` and `LOAD_CONST` instructions whose argument
compares equal to `0`; append everything else unchanged.  Non-`Instr` body
items (e.g. a `LabelDecl` or `ReturnMarker`) take the plain append path. -/
def splice_loop_body : List Item → List Item
  | [] => []
  | ins :: rest =>
    match ins with
    | .instr n a l =>
        if dropNames.contains n then splice_loop_body rest
        else if n == "LOAD_CONST" && pyEqZero a then splice_loop_body rest
        else .instr n a l :: splice_loop_body rest
    | x => x :: splice_loop_body rest

/-- Model of `Assembler._lower_rangeblock_to_stream`: the fixed loop skeleton.
`ctr` and `ctr+1` are the two fresh `Label()` ids (`l_loop`, `l_end`);
`RangeBlock` has no `step` field, so the `range` call always takes the two
arguments `start`, `stop`. -/
def lower_rangeblock_to_stream (py313 inFn : Bool) (ctr : Nat) (var : String)
    (start stop : Arg) (body : List Item) (lineno : Int) : List Item :=
  [Item.instr "PUSH_NULL" .unset (some lineno),
   Item.instr "LOAD_GLOBAL" (lg py313 "range") (some lineno)]
  ++ emit_token_load_instrs inFn start lineno
  ++ emit_token_load_instrs inFn stop lineno
  ++ [Item.instr "CALL" (.int 2) (some lineno),
      Item.instr "GET_ITER" .unset (some lineno),
      Item.label ctr,
      Item.instr "FOR_ITER" (.label (ctr + 1)) (some lineno),
      Item.instr "STORE_NAME" (.str var) (some lineno)]
  ++ splice_loop_body body
  ++ [Item.instr "JUMP_BACKWARD" (.label ctr) (some lineno),
      Item.label (ctr + 1),
      Item.instr "END_FOR" .unset (some lineno),
      Item.instr "POP_TOP" .unset (some lineno)]

/-! Pass 1a/1b: `_discover_declared_labels` and `_build_label_objects`. -/

/-- Model of `Assembler._discover_declared_labels`: scan the input for `LabelDecl`s,
recording each name's input position; a repeated name is a
`Duplicate LBL` error. -/
def discover_declared_labels : List Item → Nat → List (String × Nat) →
    Except AsmErr (List (String × Nat))
  | [], _, acc => .ok acc
  | it :: rest, idx, acc =>
    match it with
    | .labelDecl n _ =>
        if (acc.lookup n).isSome then .error (.duplicateLabel n)
        else discover_declared_labels rest (idx + 1) (acc ++ [(n, idx)])
    | _ => discover_declared_labels rest (idx + 1) acc

/-- Top-level entry of label discovery over a scope's item list. -/
def discoverLabels (items : List Item) : Except AsmErr (List (String × Nat)) :=
  discover_declared_labels items 0 []

/-- Model of `Assembler._build_label_objects`: one fresh `Label()` per discovered
name, in discovery order; label identity is modelled by the index. -/
def build_label_objects (positions : List (String × Nat)) : List (String × Nat) :=
  (positions.map Prod.fst).enum.map fun p => (p.2, p.1)

/-- Lookup of `self._label_objects[name]` (always present when reached). -/
def labLookup (labObjs : List (String × Nat)) (n : String) : Nat :=
  (labObjs.lookup n).getD 0

/-! Pass 1c: `_first_pass_rewrite` (without the trailing 3.12
normalization, which the source applies to the accumulated stream after
this loop and *after* capturing the declaration-index map). -/

/-- The rewrite loop of `_first_pass_rewrite`.  State is
`(out, decl_map, label_counter)`: the rewritten stream, the map from label
name to the stream index where its `Label` was placed (the source records
input index to stream index and converts to names in `_index_label_decls`;
names are unique once discovery has succeeded, so the composition is fused
here), and the id counter for fresh loop labels. -/
def first_pass_go (py313 inFn : Bool) (labObjs : List (String × Nat)) :
    List Item → List Item × List (String × Nat) × Nat →
    List Item × List (String × Nat) × Nat
  | [], st => st
  | it :: rest, (out, dm, ctr) =>
    match it with
    | .labelDecl n _ =>
        first_pass_go py313 inFn labObjs rest
          (out ++ [Item.label (labLookup labObjs n)], dm ++ [(n, out.length)], ctr)
    | .jumpRef t ln =>
        first_pass_go py313 inFn labObjs rest (out ++ [Item.phJump t (some ln)], dm, ctr)
    | .namedJump op t ln =>
        first_pass_go py313 inFn labObjs rest
          (out ++ [Item.phTagJump .njump op t (some ln)], dm, ctr)
    | .rangeBlock v s e body ln =>
        first_pass_go py313 inFn labObjs rest
          (out ++ lower_rangeblock_to_stream py313 inFn ctr v s e body ln, dm, ctr + 2)
    | .instr n a l =>
        if condJumpOps.contains n && argIsStrLike a then
          first_pass_go py313 inFn labObjs rest
            (out ++ [Item.phTagJump .cjump n (as_name a) l], dm, ctr)
        else if uncondJumpFixed.contains n && argIsStrLike a then
          first_pass_go py313 inFn labObjs rest
            (out ++ [Item.phTagJump .ujump n (as_name a) l], dm, ctr)
        else
          first_pass_go py313 inFn labObjs rest (out ++ [Item.instr n a l], dm, ctr)
    | x => first_pass_go py313 inFn labObjs rest (out ++ [x], dm, ctr)

/-! Calling-convention normalizer:
`normalize_push_null_for_calls_312_seq` from `paxy/compiler/twelve.py`.
On Python >= 3.13 the function returns a copy of its input; the loop below
is the 3.12 branch.  Python's in-place `del`/`insert`/`pop` with manual
index adjustment is modelled by threading `(s, i, callable_ix)` through
pure list edits.  An out-of-range `pop` (which would raise `IndexError` in
Python, aborting the compile) is modelled as leaving the state unchanged;
no input considered in the theorems below reaches that case.  A `CALL`
argument that is a numeric string (which Python's `int()` would parse) is
modelled as 0; the parser only ever produces integer `CALL` arguments. -/

/-- Model of `_prev_instr_idx(seq, start)`: index of the closest `Instr` strictly
before `start`. -/
def prev_instr_idx (s : List Item) : Nat → Option Nat
  | 0 => none
  | j + 1 =>
    match s[j]? with
    | some (.instr _ _ _) => some j
    | _ => prev_instr_idx s j

/-- Model of `int(ins.arg or 0)` on a `CALL` instruction, with `except: nargs = 0`. -/
def pyCallNargs : Arg → Nat
  | .int n => n.toNat
  | .bool true => 1
  | _ => 0

/-- Step 2 of the normalizer: backtrack over exactly `remaining` argument
pushes, skipping labels (via `prev_instr_idx`) and `PUSH_NULL`s.  `fuel`
bounds the walk; the cursor strictly decreases, so `cursor` itself is
enough fuel. -/
def backtrack_args (s : List Item) : Nat → Nat → Nat → Option Nat
  | _, cursor, 0 => some cursor
  | 0, _, _ + 1 => none
  | f + 1, cursor, r + 1 =>
    match prev_instr_idx s cursor with
    | none => none
    | some c =>
      match s[c]? with
      | some it => if isPushNull it then backtrack_args s f c (r + 1) else backtrack_args s f c r
      | none => none

/-- Step 3 of the normalizer: the callable is the previous non-label,
non-`PUSH_NULL` instruction before the cursor. -/
def find_callable (s : List Item) : Nat → Nat → Option Nat
  | 0, _ => none
  | f + 1, c =>
    match prev_instr_idx s c with
    | none => none
    | some k =>
      match s[k]? with
      | some it => if isPushNull it then find_callable s f k else some k
      | none => some k

/-- Step 3b: delete `PUSH_NULL`s strictly between the callable and the
`CALL` (indices in `(j, i)`), decrementing `i` for each deletion. -/
def del_pn_between : Nat → List Item → Nat → Nat → List Item × Nat
  | 0, s, _, i => (s, i)
  | f + 1, s, j, i =>
    if j < i then
      match s[j]? with
      | some it =>
          if isPushNull it then del_pn_between f (s.eraseIdx j) j (i - 1)
          else del_pn_between f s (j + 1) i
      | none => (s, i)
    else (s, i)

/-- Indices before `i` holding a `PUSH_NULL` whose `lineno` equals the
`CALL`'s line (step 4's `same_line_nulls`). -/
def same_line_null_idxs (s : List Item) (i : Nat) (callLine : Int) : List Nat :=
  (List.range i).filter fun j =>
    match s[j]? with
    | some (.instr "PUSH_NULL" _ ln) => ln == some callLine
    | _ => false

/-- Python `list.insert`: clamps an out-of-range index to an append. -/
def pyInsert : List Item → Nat → Item → List Item
  | l, 0, x => x :: l
  | [], _ + 1, x => [x]
  | a :: l, n + 1, x => a :: pyInsert l n x

/-- Drop the non-last same-line `PUSH_NULL`s (descending index order),
adjusting `i` and `callable_ix` exactly as the source does. -/
def drop_extras : List Nat → List Item × Nat × Nat → List Item × Nat × Nat
  | [], st => st
  | e :: rest, (s, i, cix) =>
      drop_extras rest
        (s.eraseIdx e, if e < i then i - 1 else i, if e < cix then cix - 1 else cix)

/-- Move the kept same-line `PUSH_NULL` (index `keep`, possibly stale after
the deletions above — the source does not re-adjust it) to sit right before
the callable. -/
def move_keep (s : List Item) (i cix keep : Nat) : List Item × Nat × Nat :=
  if (keep : Int) ≠ (cix : Int) - 1 then
    match s[keep]? with
    | none => (s, i, cix)
    | some node =>
      let s1 := s.eraseIdx keep
      let i1 := if keep < i then i - 1 else i
      let cix1 := if keep < cix then cix - 1 else cix
      let s2 := pyInsert s1 cix1 node
      let i2 := if cix1 ≤ i1 then i1 + 1 else i1
      (s2, i2, cix1 + 1)
  else (s, i, cix)

/-- Is there a `PUSH_NULL` immediately before the callable? -/
def has_immediate_null (s : List Item) (cix : Nat) : Bool :=
  decide (1 ≤ cix) &&
    (match s[cix - 1]? with
     | some it => isPushNull it
     | none => false)

/-- Python `a or b` on linenos (`None` and `0` are falsy). -/
def pyOrLine : Option Int → Option Int → Option Int
  | some n, b => if n = 0 then b else some n
  | none, b => b

/-- Handle one `CALL` site (`s[i]` with argument `insArg` on line
`insLine`); returns the edited list and the next loop index. -/
def normalize_call_site (s : List Item) (i : Nat) (insArg : Arg)
    (insLine : Option Int) : List Item × Nat :=
  let nargs := pyCallNargs insArg
  match backtrack_args s i i nargs with
  | none => (s, i + 1)
  | some cursor =>
    match find_callable s cursor cursor with
    | none => (s, i + 1)
    | some cix =>
      let cIns := s[cix]?.getD (Item.label 0)
      let cLine := match cIns with
        | .instr _ _ ln => ln
        | _ => none
      let s := match cIns with
        | .instr "LOAD_GLOBAL" (.pair true nm) ln =>
            s.set cix (.instr "LOAD_GLOBAL" (.pair false nm) ln)
        | _ => s
      let (s, i) := del_pn_between i s (cix + 1) i
      let hin := has_immediate_null s cix
      let (s, i, cix) :=
        match insLine with
        | some callLine =>
          let nulls := same_line_null_idxs s i callLine
          match nulls.getLast? with
          | none => (s, i, cix)
          | some keep =>
            let st := drop_extras nulls.dropLast.reverse (s, i, cix)
            move_keep st.1 st.2.1 st.2.2 keep
        | none =>
          if hin then (s, i, cix)
          else
            let s1 := pyInsert s cix (Item.instr "PUSH_NULL" .unset cLine)
            (s1, if cix ≤ i then i + 1 else i, cix + 1)
      if has_immediate_null s cix then (s, i + 1)
      else
        let ln := pyOrLine cLine insLine
        let s1 := pyInsert s cix (Item.instr "PUSH_NULL" .unset ln)
        ((s1, (if cix ≤ i then i + 1 else i) + 1) : List Item × Nat)

/-- The outer `while i < len(s)` loop of the normalizer. -/
def normalize_go : Nat → List Item → Nat → List Item
  | 0, s, _ => s
  | f + 1, s, i =>
    if i < s.length then
      match s[i]? with
      | some (.instr "CALL" a ln) =>
          let st := normalize_call_site s i a ln
          normalize_go f st.1 st.2
      | _ => normalize_go f s (i + 1)
    else s

/-- Model of `normalize_push_null_for_calls_312_seq`, 3.12 branch.  The loop
advances `len(s) - i` by one net step per iteration on every stream shape
arising here; the quadratic fuel is a generous upper bound and is never
exhausted on the inputs below. -/
def normalize312 (s : List Item) : List Item :=
  normalize_go (s.length * s.length + s.length + 16) s 0

/-- The full `normalize_push_null_for_calls_312_seq`: identity (a list
copy) when `sys.version_info >= (3, 13)`, the 3.12 rewrite otherwise. -/
def normalize_seq (py313 : Bool) (s : List Item) : List Item :=
  if py313 then s else normalize312 s

/-! Pass 2: `_second_pass_patch_jumps`, with
`_make_resolved_uncond_jump`, `_make_resolved_fixed_jump`,
`_lookup_target_index` and `_ensure_target_defined`. -/

/-- Model of `_make_resolved_uncond_jump(pos, ref)`: pick `JUMP_FORWARD` when the
recorded target index exceeds the placeholder's position, else
`JUMP_BACKWARD`; the operand is the target's `Label`. -/
def make_resolved_uncond_jump (labObjs dm : List (String × Nat)) (pos : Nat)
    (t : String) (ln : Option Int) : Except AsmErr Item :=
  match dm.lookup t with
  | none => .error (.goUndefined t)
  | some ti =>
      .ok (.instr (if ti > pos then "JUMP_FORWARD" else "JUMP_BACKWARD")
            (.label (labLookup labObjs t)) ln)

/-- Model of `_make_resolved_fixed_jump(opcode, ref)`: keep the opcode, attach the
target's `Label` (after `_ensure_target_defined`). -/
def make_resolved_fixed_jump (labObjs dm : List (String × Nat))
    (opcode t : String) (ln : Option Int) : Except AsmErr Item :=
  if (dm.lookup t).isSome then
    .ok (.instr opcode (.label (labLookup labObjs t)) ln)
  else .error (.jumpUndefined t)

/-- One entry of the patch loop of `_second_pass_patch_jumps`: a tuple
placeholder at position `pos` becomes a concrete jump; every other entry
passes through unchanged. -/
def patch_entry (labObjs dm : List (String × Nat)) (pos : Nat) :
    Item → Except AsmErr Item
  | .phJump t ln => make_resolved_uncond_jump labObjs dm pos t ln
  | .phTagJump _ op t ln => make_resolved_fixed_jump labObjs dm op t ln
  | x => .ok x

/-- The patch loop of `_second_pass_patch_jumps`. -/
def second_pass_go (labObjs dm : List (String × Nat)) (pos : Nat) :
    List Item → Except AsmErr (List Item)
  | [] => .ok []
  | it :: rest => do
    let a ← patch_entry labObjs dm pos it
    let r ← second_pass_go labObjs dm (pos + 1) rest
    .ok (a :: r)

/-! Pass 3 ingredients: `_rewrite_locals_for_function`,
`_sanitize_function_body`, and the `ReturnMarker` lowering of
`_lower_functions_and_returns`. -/

/-- Step 1 of `_rewrite_locals_for_function`: the local-name set is the
parameters plus the argument of every `STORE_NAME` / `DELETE_NAME` /
`STORE_FAST` / `DELETE_FAST` instruction with a string-like argument. -/
def collect_locals (params : List String) (body : List Item) : List String :=
  body.foldl
    (fun acc it =>
      match it with
      | .instr n a _ =>
          if (n == "STORE_NAME" || n == "DELETE_NAME" ||
              n == "STORE_FAST" || n == "DELETE_FAST") && argIsStrLike a then
            acc ++ [as_name a]
          else acc
      | _ => acc)
    params

/-- Step 2 of `_rewrite_locals_for_function`, on a single item: `*_NAME`
ops become `*_FAST` (or `LOAD_GLOBAL` for a non-local `LOAD_NAME`), and
`Ident` arguments of `*_FAST` ops are normalized to plain strings. -/
def rewrite_one (py313 : Bool) (localNames : List String) : Item → Item
  | .instr nm a ln =>
    if argIsStrLike a then
      let name := as_name a
      if nm == "LOAD_NAME" then
        if localNames.contains name then .instr "LOAD_FAST" (.str name) ln
        else .instr "LOAD_GLOBAL" (.pair py313 name) ln
      else if nm == "STORE_NAME" then .instr "STORE_FAST" (.str name) ln
      else if nm == "DELETE_NAME" then .instr "DELETE_FAST" (.str name) ln
      else if nm == "LOAD_FAST" || nm == "STORE_FAST" || nm == "DELETE_FAST" then
        .instr nm (.str name) ln
      else .instr nm a ln
    else .instr nm a ln
  | x => x

/-- Model of `_rewrite_locals_for_function`: classify and rewrite, then fail on any
leftover `*_NAME` op (step 3's internal sanity check). -/
def rewrite_locals_for_function (py313 : Bool) (body : List Item)
    (params : List String) : Except AsmErr (List Item) :=
  let localNames := collect_locals params body
  let out := body.map (rewrite_one py313 localNames)
  if out.any (fun it =>
      match it with
      | .instr n _ _ => n.endsWith "_NAME"
      | _ => false) then
    .error (.internal "NAME ops remain after rewrite")
  else .ok out

/-- The loop of `_sanitize_function_body`: keep only the first `RESUME`. -/
def sanitize_go (saw : Bool) : List Item → List Item
  | [] => []
  | it :: rest =>
    match it with
    | .instr "RESUME" a ln =>
        if saw then sanitize_go true rest
        else .instr "RESUME" a ln :: sanitize_go true rest
    | x => x :: sanitize_go saw rest

/-- Model of `_sanitize_function_body`. -/
def sanitize_function_body (body : List Item) : List Item :=
  sanitize_go false body

/-- The instruction sequence a `ReturnMarker` lowers to inside a function:
`RETURN_VALUE` when a value was pushed, else `LOAD_CONST 0; RETURN_VALUE`. -/
def ret_lowering (hasValue : Bool) (ln : Int) : List Item :=
  if hasValue then [Item.instr "RETURN_VALUE" .unset (some ln)]
  else [Item.instr "LOAD_CONST" (.int 0) (some ln),
        Item.instr "RETURN_VALUE" .unset (some ln)]

/-- Model of `Assembler._sanity_check`: no tuple placeholder remains, and every
jump-class instruction's operand is a `Label`. -/
def sanity_check : List Item → Except AsmErr Unit
  | [] => .ok ()
  | it :: rest =>
    match it with
    | .phJump _ _ => .error (.internal "unresolved jump placeholder")
    | .phTagJump _ _ _ _ => .error (.internal "unresolved jump placeholder")
    | .instr n a _ =>
        if condJumpOps.contains n || uncondJumpFixed.contains n then
          match a with
          | .label _ => sanity_check rest
          | _ => .error (.internal "jump still has non-Label arg")
        else sanity_check rest
    | _ => sanity_check rest

/-- The loop of `_lower_functions_and_returns`, parameterized by the
handler for a `FuncDef` entry (`_lower_funcdef`, which recurses into a
fresh `Assembler`): `FuncDef` is handed to the handler, a `ReturnMarker`
at module scope is a `RET outside of SUB` error and inside a function
lowers to `ret_lowering`, everything else passes through unchanged. -/
def lower_functions_and_returns
    (handleFn : String → List String → List Item → Int → Except AsmErr (List Item))
    (inFn : Bool) : List Item → Except AsmErr (List Item)
  | [] => .ok []
  | .funcDef n ps body ln :: rest => do
      let f ← handleFn n ps body ln
      let r ← lower_functions_and_returns handleFn inFn rest
      .ok (f ++ r)
  | .returnMarker b ln :: rest =>
      if inFn then do
        let r ← lower_functions_and_returns handleFn inFn rest
        .ok (ret_lowering b ln ++ r)
      else .error .retOutsideSub
  | x :: rest => do
      let r ← lower_functions_and_returns handleFn inFn rest
      .ok (x :: r)

/-! The resolution pipeline.  `Assembler.resolve` recurses into nested
`FuncDef` bodies via a fresh `Assembler(..., in_function=True)`; the two
mutually recursive stages (`resolve` and `_lower_funcdef`) are
defunctionalized into one function structurally recursive on a fuel
counter, so every run reduces definitionally.  Fuel is consumed once per
scope / per lowered function, i.e. proportionally to `FuncDef` nesting
depth; the constant bound in `resolve` exceeds by orders of magnitude the
nesting CPython's own recursion limit lets the source survive. -/

/-- A pending call of the resolution engine. -/
inductive AsmCall where
  | resolveC (py313 : Bool) (items : List Item) (inFn : Bool)
  | lowerFnC (py313 : Bool) (name : String) (params : List String)
      (body : List Item) (lineno : Int)

/-- The resolution engine: `resolveC` is `Assembler.resolve` (passes 1a–2
inline, then `_lower_functions_and_returns`, then `_sanity_check`);
`lowerFnC` is `_lower_funcdef` (the external `Bytecode(...).to_code()`
packaging is the opaque constant `Arg.codeObj`; its input, the rewritten,
sanitized body with a default return appended when no `RETURN_VALUE`
exists, is still computed so that its errors propagate exactly as in the
source). -/
def asm_run : Nat → AsmCall → Except AsmErr (List Item)
  | 0, _ => .error (.internal "fuel exhausted")
  | fuel + 1, .resolveC py313 items inFn => do
      let positions ← discoverLabels items
      let labObjs := build_label_objects positions
      let st := first_pass_go py313 inFn labObjs items ([], [], labObjs.length)
      let stream := normalize_seq py313 st.1
      let patched ← second_pass_go labObjs st.2.1 0 stream
      let final ← lower_functions_and_returns
        (fun n ps b ln => asm_run fuel (.lowerFnC py313 n ps b ln)) inFn patched
      match sanity_check final with
      | .error e => .error e
      | .ok _ => .ok final
  | fuel + 1, .lowerFnC py313 n ps body ln => do
      let inner ← asm_run fuel (.resolveC py313 body true)
      let lowered ← rewrite_locals_for_function py313 inner ps
      let lowered2 := sanitize_function_body lowered
      let hasRet := lowered2.any fun it =>
        match it with
        | .instr "RETURN_VALUE" _ _ => true
        | _ => false
      let _codeBody :=
        if hasRet then lowered2
        else lowered2 ++ [Item.instr "LOAD_CONST" (.int 0) (some ln),
                          Item.instr "RETURN_VALUE" .unset (some ln)]
      let maker :=
        if py313 then Item.instr "MAKE_FUNCTION" .unset (some ln)
        else Item.instr "MAKE_FUNCTION" (.int 0) (some ln)
      .ok [Item.instr "LOAD_CONST" .codeObj (some ln), maker,
           Item.instr "STORE_NAME" (.str n) (some ln)]

/-- Model of `Assembler(items, in_function=inFn).resolve()`. -/
def resolve (py313 : Bool) (items : List Item) (inFn : Bool) :
    Except AsmErr (List Item) :=
  asm_run 1000000 (.resolveC py313 items inFn)

/-! Operator resolver: `paxy/compiler/opcoerce.py`.  The four coercers
share one shape: an already-coerced enum member passes through; a string
is looked up in the family's symbol map, defaulted to itself, uppercased,
and looked up among the enum member names; an integer is looked up among
the enum member values; anything else (or a failed lookup) raises a
`SyntaxError` naming the family and the input.  `IsOp` and `ContainsOp`
are defined in the source file itself (IS = 0, IS_NOT = 1; IN = 0,
NOT_IN = 1). -/

/-- Modelled from the spec: the target-VM opcode catalogue (the external
`bytecode` library's `BinaryOp` enum, CPython's `NB_*` operation codes),
which the spec treats as an external collaborator.  Only the member-name
set and the injectivity of the values matter to the theorems below. -/
def binaryOpMembers : List (String × Nat) :=
  [("ADD", 0), ("AND", 1), ("FLOOR_DIVIDE", 2), ("LSHIFT", 3),
   ("MATRIX_MULTIPLY", 4), ("MULTIPLY", 5), ("REMAINDER", 6), ("OR", 7),
   ("POWER", 8), ("RSHIFT", 9), ("SUBTRACT", 10), ("TRUE_DIVIDE", 11),
   ("XOR", 12), ("INPLACE_ADD", 13), ("INPLACE_AND", 14),
   ("INPLACE_FLOOR_DIVIDE", 15), ("INPLACE_LSHIFT", 16),
   ("INPLACE_MATRIX_MULTIPLY", 17), ("INPLACE_MULTIPLY", 18),
   ("INPLACE_REMAINDER", 19), ("INPLACE_OR", 20), ("INPLACE_POWER", 21),
   ("INPLACE_RSHIFT", 22), ("INPLACE_SUBTRACT", 23),
   ("INPLACE_TRUE_DIVIDE", 24), ("INPLACE_XOR", 25)]

/-- Modelled from the spec: the external `Compare` enum of the `bytecode`
library (ordering comparisons only, as the source's docstring notes). -/
def compareMembers : List (String × Nat) :=
  [("LT", 0), ("LE", 1), ("EQ", 2), ("NE", 3), ("GT", 4), ("GE", 5)]

/-- Model of `IsOp` from `opcoerce.py`. -/
def isOpMembers : List (String × Nat) := [("IS", 0), ("IS_NOT", 1)]

/-- Model of `ContainsOp` from `opcoerce.py`. -/
def containsOpMembers : List (String × Nat) := [("IN", 0), ("NOT_IN", 1)]

/-- Model of `BINARY_SYMBOL_MAP`. -/
def binarySymbolMap : List (String × String) :=
  [("+", "ADD"), ("-", "SUBTRACT"), ("*", "MULTIPLY"), ("/", "TRUE_DIVIDE"),
   ("//", "FLOOR_DIVIDE"), ("%", "REMAINDER"), ("**", "POWER"),
   ("<<", "LSHIFT"), (">>", "RSHIFT"), ("|", "OR"), ("&", "AND"),
   ("^", "XOR"), ("@", "MATRIX_MULTIPLY")]

/-- Model of `COMPARE_SYMBOL_MAP`. -/
def compareSymbolMap : List (String × String) :=
  [("==", "EQ"), ("!=", "NE"), ("<", "LT"), ("<=", "LE"), (">", "GT"),
   (">=", "GE")]

/-- Model of `IS_SYMBOL_MAP`. -/
def isSymbolMap : List (String × String) := [("is", "IS"), ("is not", "IS_NOT")]

/-- Model of `CONTAINS_SYMBOL_MAP`. -/
def containsSymbolMap : List (String × String) :=
  [("in", "IN"), ("not in", "NOT_IN")]

/-- ASCII lowercase-to-uppercase pairs (the letters Python's `str.upper()`
affects in the resolver's ASCII spellings). -/
def asciiUpperTable : List (Char × Char) :=
  [('a', 'A'), ('b', 'B'), ('c', 'C'), ('d', 'D'), ('e', 'E'), ('f', 'F'),
   ('g', 'G'), ('h', 'H'), ('i', 'I'), ('j', 'J'), ('k', 'K'), ('l', 'L'),
   ('m', 'M'), ('n', 'N'), ('o', 'O'), ('p', 'P'), ('q', 'Q'), ('r', 'R'),
   ('s', 'S'), ('t', 'T'), ('u', 'U'), ('v', 'V'), ('w', 'W'), ('x', 'X'),
   ('y', 'Y'), ('z', 'Z')]

/-- One character of Python's `str.upper()` over the ASCII range. -/
def pyCharUpper (c : Char) : Char := (asciiUpperTable.lookup c).getD c

/-- Python's `str.upper()` restricted to ASCII, which covers every operator
spelling the resolver's tables and callers use. -/
def pyUpper (s : String) : String := String.mk (s.data.map pyCharUpper)

/-- Input of a coercer: an already-coerced enum member, a string spelling,
or an integer code. -/
inductive CoerceInput where
  | enumMember (v : Nat)
  | str (s : String)
  | int (n : Int)
  deriving DecidableEq, Repr

/-- Failures of a coercer (`SyntaxError`s in the source), carrying the
offending family and input exactly as the messages do. -/
inductive CoerceErr where
  | unknownName (family : String) (nameTried : String) (orig : String)
  | invalidCode (family : String) (code : Int)
  deriving DecidableEq, Repr

/-- The shared body of `coerce_binary_op` / `coerce_compare_op` /
`coerce_is_op` / `coerce_contains_op`: symbol-map lookup defaulted to the
input, uppercase, enum-name lookup; or enum-value lookup for integers. -/
def coerce_generic (family : String) (symMap : List (String × String))
    (members : List (String × Nat)) : CoerceInput → Except CoerceErr Nat
  | .enumMember v => .ok v
  | .str s =>
      let name := pyUpper ((symMap.lookup s).getD s)
      match members.lookup name with
      | some v => .ok v
      | none => .error (.unknownName family name s)
  | .int n =>
      match members.find? (fun p => (p.2 : Int) == n) with
      | some p => .ok p.2
      | none => .error (.invalidCode family n)

/-- Model of `coerce_binary_op`. -/
def coerce_binary_op : CoerceInput → Except CoerceErr Nat :=
  coerce_generic "BINARY_OP" binarySymbolMap binaryOpMembers

/-- Model of `coerce_compare_op`. -/
def coerce_compare_op : CoerceInput → Except CoerceErr Nat :=
  coerce_generic "COMPARE_OP" compareSymbolMap compareMembers

/-- Model of `coerce_is_op`. -/
def coerce_is_op : CoerceInput → Except CoerceErr Nat :=
  coerce_generic "IS_OP" isSymbolMap isOpMembers

/-- Model of `coerce_contains_op`. -/
def coerce_contains_op : CoerceInput → Except CoerceErr Nat :=
  coerce_generic "CONTAINS_OP" containsSymbolMap containsOpMembers

/-! Derived definitions used to state the claims. -/

/-- The shape condition under which the loop-body splice of
`_lower_rangeblock_to_stream` drops an item: an `Instr` named `RESUME`,
`RETURN_VALUE` or `RETURN_CONST`, or a `LOAD_CONST` whose argument
compares equal to 0. -/
def dropped_by_splice : Item → Bool
  | .instr n a _ => dropNames.contains n || (n == "LOAD_CONST" && pyEqZero a)
  | _ => false

/-- Is this item a `CALL` instruction? -/
def isCallInstr : Item → Bool
  | .instr n _ _ => n == "CALL"
  | _ => false

/-- Is this item a `FuncDef` placeholder? -/
def Item.isFuncDefB : Item → Bool
  | .funcDef _ _ _ _ => true
  | _ => false

/-- Is this item a `ReturnMarker` placeholder? -/
def Item.isReturnMarkerB : Item → Bool
  | .returnMarker _ _ => true
  | _ => false

/-- The local-name contribution of one lowered-body item, as
`_rewrite_locals_for_function` collects it (store and delete targets). -/
def locals_contrib : Item → List String
  | .instr n a _ =>
      if (n == "STORE_NAME" || n == "DELETE_NAME" ||
          n == "STORE_FAST" || n == "DELETE_FAST") && argIsStrLike a then
        [as_name a]
      else []
  | _ => []

/-- Modelled from the spec's words, for the refinement comparison of the
scope-classification claim: "a name is local iff it is a parameter or is
ever the target of a store" — parameters plus the targets of store
operations only (`STORE_NAME` / `STORE_FAST`), with no mention of delete
targets. -/
def spec_local_names (params : List String) (body : List Item) : List String :=
  params ++ body.flatMap fun it =>
    match it with
    | .instr n a _ =>
        if (n == "STORE_NAME" || n == "STORE_FAST") && argIsStrLike a then
          [as_name a]
        else []
    | _ => []

/-- Names referenced through a generic `LOAD_NAME` in a lowered body. -/
def load_name_refs (body : List Item) : List String :=
  body.flatMap fun it =>
    match it with
    | .instr n a _ => if n == "LOAD_NAME" && argIsStrLike a then [as_name a] else []
    | _ => []

/-- Names referenced through any generic name operation
(`LOAD_NAME` / `STORE_NAME` / `DELETE_NAME`) in a lowered body. -/
def generic_name_refs (body : List Item) : List String :=
  body.flatMap fun it =>
    match it with
    | .instr n a _ =>
        if (n == "LOAD_NAME" || n == "STORE_NAME" || n == "DELETE_NAME") &&
            argIsStrLike a then
          [as_name a]
        else []
    | _ => []

/-- The names `_rewrite_locals_for_function` classifies global: referenced
by a generic `LOAD_NAME` and not in the computed local set (these are
exactly the names it emits `LOAD_GLOBAL` for). -/
def global_names (params : List String) (body : List Item) : List String :=
  (load_name_refs body).filter fun n => !(collect_locals params body).contains n

/-- Number of `LabelDecl`s for name `n` in an item list. -/
def count_label_decls (items : List Item) (n : String) : Nat :=
  items.countP fun it =>
    match it with
    | .labelDecl m _ => m == n
    | _ => false

/-- The operator-resolver contract of the spec, for one family: every
symbol spelling and every member name in any letter case maps to the
member's canonical value, every member value round-trips through the
integer fallback, and an unrecognized spelling or out-of-range code fails
with an error naming the family and the input. -/
def coercer_ok (family : String) (symMap : List (String × String))
    (members : List (String × Nat)) : Prop :=
  (∀ p ∈ symMap, ∃ v, members.lookup p.2 = some v ∧
      coerce_generic family symMap members (.str p.1) = .ok v) ∧
  (∀ q ∈ members, ∀ s : String, pyUpper s = q.1 →
      coerce_generic family symMap members (.str s) = .ok q.2) ∧
  (∀ q ∈ members,
      coerce_generic family symMap members (.int (q.2 : Int)) = .ok q.2) ∧
  (∀ s : String, symMap.lookup s = none → members.lookup (pyUpper s) = none →
      coerce_generic family symMap members (.str s) =
        .error (.unknownName family (pyUpper s) s)) ∧
  (∀ n : Int, members.find? (fun p => (p.2 : Int) == n) = none →
      coerce_generic family symMap members (.int n) = .error (.invalidCode family n))

/-- A module stream with two zero-argument call sites sharing one source
line, the shape on which the 3.12 normalizer's same-line cleanup reuses a
stale kept-index. -/
def twoCallStream : List Item :=
  [Item.instr "LOAD_NAME" (.ident "f") (some 5),
   Item.instr "CALL" (.int 0) (some 5),
   Item.instr "POP_TOP" .unset (some 5),
   Item.instr "LOAD_NAME" (.ident "g") (some 5),
   Item.instr "CALL" (.int 0) (some 5),
   Item.instr "POP_TOP" .unset (some 5)]

/-! Theorems.  General-purpose lemmas come first, then one theorem per
claim (with its witness or counterexample where required). -/

/-- Non-`Instr` items (here: a `LabelDecl`) survive the loop-body splice:
only the `Instr` branch of the splice loop can drop anything. -/
theorem mem_splice_of_labelDecl {n : String} {l : Int} :
    ∀ body : List Item, Item.labelDecl n l ∈ body →
      Item.labelDecl n l ∈ splice_loop_body body := by
  intro body h
  induction body with
  | nil => cases h
  | cons a rest ih =>
    rcases List.mem_cons.mp h with h1 | h2
    · subst h1
      simp [splice_loop_body]
    · cases a
      case instr nm ar ln =>
        simp only [splice_loop_body]
        split_ifs with hd1 hd2
        exacts [ih h2, ih h2, List.mem_cons_of_mem _ (ih h2)]
      all_goals exact List.mem_cons_of_mem _ (ih h2)

/-- Claim C1 (code bug): `resolve()` can return normally with a residual
`LabelDecl` placeholder in its output — a `LabelDecl` inside a
`RangeBlock` body is spliced through every pass (the sanity check only
rejects tuple placeholders), contradicting the documented
`ResolvedItem = Union[Instr, Label]` return type. -/
theorem claim_C1 :
    resolve true [Item.rangeBlock "i" (.int 1) (.int 2) [Item.labelDecl "x" 1] 1] false =
      .ok [Item.instr "PUSH_NULL" .unset (some 1),
           Item.instr "LOAD_GLOBAL" (.pair true "range") (some 1),
           Item.instr "LOAD_CONST" (.int 1) (some 1),
           Item.instr "LOAD_CONST" (.int 2) (some 1),
           Item.instr "CALL" (.int 2) (some 1),
           Item.instr "GET_ITER" .unset (some 1),
           Item.label 0,
           Item.instr "FOR_ITER" (.label 1) (some 1),
           Item.instr "STORE_NAME" (.str "i") (some 1),
           Item.labelDecl "x" 1,
           Item.instr "JUMP_BACKWARD" (.label 0) (some 1),
           Item.label 1,
           Item.instr "END_FOR" .unset (some 1),
           Item.instr "POP_TOP" .unset (some 1)] ∧
    ([Item.labelDecl "x" 1].all Item.isConcrete) = false := by
  exact ⟨rfl, rfl⟩

/-- Claim C8, counterexample: a `LoopBlock` whose body declares a label is
*not* rejected — `resolve()` accepts it (no `LabelInLoopBody` or any other
error) and returns normally. -/
theorem claim_C8_counterexample :
    resolve true [Item.rangeBlock "j" (.int 0) (.int 3) [Item.labelDecl "t" 2] 1] false =
      .ok [Item.instr "PUSH_NULL" .unset (some 1),
           Item.instr "LOAD_GLOBAL" (.pair true "range") (some 1),
           Item.instr "LOAD_CONST" (.int 0) (some 1),
           Item.instr "LOAD_CONST" (.int 3) (some 1),
           Item.instr "CALL" (.int 2) (some 1),
           Item.instr "GET_ITER" .unset (some 1),
           Item.label 0,
           Item.instr "FOR_ITER" (.label 1) (some 1),
           Item.instr "STORE_NAME" (.str "j") (some 1),
           Item.labelDecl "t" 2,
           Item.instr "JUMP_BACKWARD" (.label 0) (some 1),
           Item.label 1,
           Item.instr "END_FOR" .unset (some 1),
           Item.instr "POP_TOP" .unset (some 1)] := by
  rfl

/-- Claim C8, amended: instead of being rejected, a `LabelDecl` inside a
`LoopBlock` body is spliced through the loop lowering unchanged (and so
survives into the lowered stream). -/
theorem claim_C8 (py313 inFn : Bool) (ctr : Nat) (var : String)
    (start stop : Arg) (body : List Item) (ln : Int) (n : String) (l : Int)
    (h : Item.labelDecl n l ∈ body) :
    Item.labelDecl n l ∈
      lower_rangeblock_to_stream py313 inFn ctr var start stop body ln := by
  have hs := mem_splice_of_labelDecl body h
  simp [lower_rangeblock_to_stream, List.mem_append, hs]

/-- Claim C8, witness. -/
theorem claim_C8_witness :
    Item.labelDecl "t" 2 ∈
      lower_rangeblock_to_stream true false 0 "j" (.int 0) (.int 3)
        [Item.labelDecl "t" 2] 1 :=
  claim_C8 true false 0 "j" (.int 0) (.int 3) [Item.labelDecl "t" 2] 1 "t" 2
    (by simp)

/-- Claim C4: lowering a `LoopBlock` produces, in order, the
iterator-acquire operations (sentinel push, load of the iteration factory
`range`, loads of the start and end tokens, the call, `GET_ITER`), a
loop-head label, the advance-or-exit `FOR_ITER` targeting the end label,
the `STORE_NAME` binding the induction variable, the spliced body, the
`JUMP_BACKWARD` targeting the loop-head label, the end label, and the
cleanup operations `END_FOR`, `POP_TOP`; the two labels are distinct. -/
theorem claim_C4 (py313 inFn : Bool) (ctr : Nat) (var : String)
    (start stop : Arg) (body : List Item) (ln : Int) :
    lower_rangeblock_to_stream py313 inFn ctr var start stop body ln =
      ([Item.instr "PUSH_NULL" .unset (some ln),
        Item.instr "LOAD_GLOBAL" (lg py313 "range") (some ln)]
        ++ emit_token_load_instrs inFn start ln
        ++ emit_token_load_instrs inFn stop ln
        ++ [Item.instr "CALL" (.int 2) (some ln),
            Item.instr "GET_ITER" .unset (some ln)])
      ++ [Item.label ctr]
      ++ [Item.instr "FOR_ITER" (.label (ctr + 1)) (some ln)]
      ++ [Item.instr "STORE_NAME" (.str var) (some ln)]
      ++ splice_loop_body body
      ++ [Item.instr "JUMP_BACKWARD" (.label ctr) (some ln)]
      ++ [Item.label (ctr + 1)]
      ++ [Item.instr "END_FOR" .unset (some ln),
          Item.instr "POP_TOP" .unset (some ln)] ∧
    ctr ≠ ctr + 1 := by
  constructor
  · simp [lower_rangeblock_to_stream]
  · omega

/-- Claim C5, counterexample: a bare `ReturnMarker` in a spliced loop body
is *not* removed — the splice filter only inspects `Instr` items, so the
marker passes through into the loop. -/
theorem claim_C5_counterexample :
    splice_loop_body [Item.returnMarker false 7] = [Item.returnMarker false 7] := by
  rfl

/-- Claim C5, amended: the loop-body splice is exactly a filter — the
items removed are precisely the `Instr`s named `RESUME`, `RETURN_VALUE`
or `RETURN_CONST` and the `LOAD_CONST` instructions whose argument
compares equal to 0 (user-intended or not); every other item, including
any bare `ReturnMarker`, is spliced through unchanged and in order. -/
theorem claim_C5 (body : List Item) :
    splice_loop_body body = body.filter fun it => !dropped_by_splice it := by
  induction body with
  | nil => rfl
  | cons a rest ih =>
    rw [List.filter_cons]
    cases a
    case instr nm ar ln =>
      by_cases hd1 : nm ∈ dropNames
      · simp [splice_loop_body, dropped_by_splice, hd1, ih]
      · by_cases hd2 : nm = "LOAD_CONST" ∧ pyEqZero ar = true
        · simp [splice_loop_body, dropped_by_splice, hd1, hd2, ih]
        · simp [splice_loop_body, dropped_by_splice, hd1, hd2, ih]
          rw [not_and_or] at hd2
          simp only [Bool.not_eq_true] at hd2
          rw [if_pos hd2]
    all_goals simp [splice_loop_body, dropped_by_splice, ih]

/-- Claim C2, counterexample: on the 3.12 path the decl-index map is
recorded *before* the calling-convention normalizer inserts a `PUSH_NULL`,
so for a forward reference sitting after a call site the stale index makes
`_make_resolved_uncond_jump` emit `JUMP_BACKWARD` even though the target
label lands *after* the jump in the output (label at output index 4,
jump at output index 3). -/
theorem claim_C2_counterexample :
    resolve false
      [Item.instr "LOAD_NAME" (.ident "f") (some 1),
       Item.instr "CALL" (.int 0) (some 1),
       Item.jumpRef "x" 1,
       Item.labelDecl "x" 1] false =
      .ok [Item.instr "PUSH_NULL" .unset (some 1),
           Item.instr "LOAD_NAME" (.ident "f") (some 1),
           Item.instr "CALL" (.int 0) (some 1),
           Item.instr "JUMP_BACKWARD" (.label 0) (some 1),
           Item.label 0] := by
  rfl

/-- Claim C7, counterexample: the 3.12 normalizer is not idempotent — on a
stream with two same-line zero-argument call sites, the second run inserts
a further `PUSH_NULL` (between the second callable and its `CALL`), so the
output even changes length. -/
theorem claim_C7_counterexample :
    normalize312 (normalize312 twoCallStream) ≠ normalize312 twoCallStream := by
  intro h
  have e1 : (normalize312 twoCallStream).length = 7 := by rfl
  have e2 : (normalize312 (normalize312 twoCallStream)).length = 8 := by rfl
  rw [h, e1] at e2
  exact absurd e2 (by decide)

/-- The normalizer loop never edits a stream with no `CALL` instruction:
every iteration takes the skip branch. -/
theorem normalize_go_no_call :
    ∀ (fuel : Nat) (s : List Item) (i : Nat),
      s.all (fun it => !isCallInstr it) = true → normalize_go fuel s i = s := by
  intro fuel
  induction fuel with
  | zero => intro s i _; rfl
  | succ f ih =>
    intro s i h
    simp only [normalize_go]
    by_cases hlt : i < s.length
    · rw [if_pos hlt]
      split
      · next a ln heq =>
          exfalso
          have hm : Item.instr "CALL" a ln ∈ s := List.getElem?_mem heq
          have := (List.all_eq_true.mp h) _ hm
          simp [isCallInstr] at this
      · exact ih s (i + 1) h
    · rw [if_neg hlt]

/-- Claim C7, amended: the normalizer is idempotent on the Python >= 3.13
path (where it returns its input unchanged), and on the 3.12 path it is
the identity — hence idempotent — on any stream containing no `CALL`
instruction; with 3.12 `CALL` sites idempotence fails
(see the counterexample). -/
theorem claim_C7 :
    (∀ s : List Item, normalize_seq true (normalize_seq true s) = normalize_seq true s) ∧
    (∀ s : List Item, s.all (fun it => !isCallInstr it) = true →
      normalize312 s = s ∧ normalize312 (normalize312 s) = normalize312 s) := by
  constructor
  · intro s; rfl
  · intro s h
    have h1 : normalize312 s = s := normalize_go_no_call _ s 0 h
    exact ⟨h1, by rw [h1, h1]⟩

/-- Claim C7, witness. -/
theorem claim_C7_witness :
    normalize312 [Item.label 3] = [Item.label 3] ∧
    normalize312 (normalize312 [Item.label 3]) = normalize312 [Item.label 3] :=
  claim_C7.2 [Item.label 3] (by rfl)

/-- Claim C6: a `ReturnMarker` reaching the lowering pass at module scope
(`inside_function = false`) makes it fail with the return-outside-function
error (and so `resolve()` fails, shown on a concrete program); inside a
function a `ReturnMarker` with `has_value` lowers to exactly one
`RETURN_VALUE`, and one without to `LOAD_CONST 0; RETURN_VALUE`, splicing
the surrounding items unchanged. -/
theorem claim_C6 :
    (∀ (handleFn : String → List String → List Item → Int → Except AsmErr (List Item))
       (pre post : List Item) (b : Bool) (ln : Int),
       pre.all (fun it => !it.isFuncDefB && !it.isReturnMarkerB) = true →
       lower_functions_and_returns handleFn false (pre ++ Item.returnMarker b ln :: post) =
         .error .retOutsideSub) ∧
    (∀ (handleFn : String → List String → List Item → Int → Except AsmErr (List Item))
       (pre post : List Item) (b : Bool) (ln : Int),
       pre.all (fun it => !it.isFuncDefB && !it.isReturnMarkerB) = true →
       lower_functions_and_returns handleFn true (pre ++ Item.returnMarker b ln :: post) =
         (lower_functions_and_returns handleFn true post).map
           (fun r => pre ++ (ret_lowering b ln ++ r))) ∧
    (∀ ln : Int,
       ret_lowering true ln = [Item.instr "RETURN_VALUE" .unset (some ln)] ∧
       ret_lowering false ln = [Item.instr "LOAD_CONST" (.int 0) (some ln),
                                Item.instr "RETURN_VALUE" .unset (some ln)]) ∧
    resolve true [Item.returnMarker false 3] false = .error .retOutsideSub := by
  refine ⟨?_, ?_, fun ln => ⟨rfl, rfl⟩, rfl⟩
  · intro handleFn pre post b ln h
    induction pre with
    | nil => simp [lower_functions_and_returns]
    | cons x rest ih =>
      simp only [List.all_cons, Bool.and_eq_true] at h
      have hrec := ih h.2
      cases x
      case funcDef nm ps bd l0 => simp [Item.isFuncDefB] at h
      case returnMarker b0 l0 => simp [Item.isReturnMarkerB] at h
      all_goals
        simp only [List.cons_append, lower_functions_and_returns]
        rw [show rest.append (Item.returnMarker b ln :: post) =
              rest ++ Item.returnMarker b ln :: post from rfl, hrec]
        rfl
  · intro handleFn pre post b ln h
    induction pre with
    | nil =>
      simp only [List.nil_append, lower_functions_and_returns]
      cases hrec : lower_functions_and_returns handleFn true post <;>
        simp [hrec, Except.map, Bind.bind, Except.bind]
    | cons x rest ih =>
      simp only [List.all_cons, Bool.and_eq_true] at h
      have hrec := ih h.2
      cases x
      case funcDef nm ps bd l0 => simp [Item.isFuncDefB] at h
      case returnMarker b0 l0 => simp [Item.isReturnMarkerB] at h
      all_goals
        simp only [List.cons_append, lower_functions_and_returns]
        rw [show rest.append (Item.returnMarker b ln :: post) =
              rest ++ Item.returnMarker b ln :: post from rfl, hrec]
        try rfl
        cases hpost : lower_functions_and_returns handleFn true post <;>
          simp [hpost, Except.map, Bind.bind, Except.bind]

/-- Claim C6, witness. -/
theorem claim_C6_witness :
    lower_functions_and_returns (fun _ _ _ _ => .ok []) false
      ([Item.instr "NOP" .unset (some 1)] ++ Item.returnMarker false 2 :: []) =
      .error .retOutsideSub ∧
    lower_functions_and_returns (fun _ _ _ _ => .ok []) true
      ([Item.instr "NOP" .unset (some 1)] ++ Item.returnMarker true 2 :: []) =
      (lower_functions_and_returns (fun _ _ _ _ => .ok []) true []).map
        (fun r => [Item.instr "NOP" .unset (some 1)] ++ (ret_lowering true 2 ++ r)) :=
  ⟨claim_C6.1 _ [Item.instr "NOP" .unset (some 1)] [] false 2 (by rfl),
   claim_C6.2.1 _ [Item.instr "NOP" .unset (some 1)] [] true 2 (by rfl)⟩

/-- Fact: `List.lookup` over an append is left-biased. -/
theorem lookup_append {β : Type} (l1 l2 : List (String × β)) (k : String) :
    (l1 ++ l2).lookup k = ((l1.lookup k).orElse fun _ => l2.lookup k) := by
  induction l1 with
  | nil => simp [List.lookup, Option.orElse]
  | cons p rest ih =>
    obtain ⟨a, b⟩ := p
    by_cases hk : (k == a) = true
    · simp [List.lookup, hk, Option.orElse]
    · simp [List.lookup, hk, Option.orElse, ih]

/-- Lift the reported-duplicate invariant over one consumed `LabelDecl`
(`m0` fresh for the accumulator, recorded at position `idx`). -/
theorem dup_report_lift (acc : List (String × Nat)) (m0 : String) (idx : Nat)
    (l0 : Int) (rest : List Item) (m : String)
    (h : ((acc ++ [(m0, idx)]).lookup m).isSome ∧ 0 < count_label_decls rest m ∨
         2 ≤ count_label_decls rest m) :
    (acc.lookup m).isSome ∧ 0 < count_label_decls (Item.labelDecl m0 l0 :: rest) m ∨
      2 ≤ count_label_decls (Item.labelDecl m0 l0 :: rest) m := by
  have hcnt : count_label_decls (Item.labelDecl m0 l0 :: rest) m =
      count_label_decls rest m + (if m0 == m then 1 else 0) := by
    simp [count_label_decls, List.countP_cons]
  rcases h with ⟨hs, hpos⟩ | h2
  · by_cases hacc : (acc.lookup m).isSome
    · exact Or.inl ⟨hacc, by omega⟩
    · have hm0 : m0 = m := by
        rw [lookup_append] at hs
        cases hl : acc.lookup m with
        | some v => simp [hl] at hacc
        | none =>
          rw [hl] at hs
          simp only [Option.orElse, List.lookup] at hs
          cases hb : m == m0 with
          | true => exact (eq_of_beq hb).symm
          | false => rw [hb] at hs; simp at hs
      right
      rw [hcnt, if_pos (by simp [hm0])]
      omega
  · right
    rw [hcnt]
    omega

/-- If some declared name is already in the accumulator and declared again
in the remaining items, discovery reports a duplicate label, and the
reported name is itself genuinely duplicated (either already accumulated
and re-declared, or declared twice in the remainder). -/
theorem discover_err_of_acc :
    ∀ (l : List Item) (idx : Nat) (acc : List (String × Nat)) (n : String),
      (acc.lookup n).isSome → 0 < count_label_decls l n →
      ∃ m, discover_declared_labels l idx acc = .error (.duplicateLabel m) ∧
        ((acc.lookup m).isSome ∧ 0 < count_label_decls l m ∨
          2 ≤ count_label_decls l m) := by
  intro l
  induction l with
  | nil =>
    intro idx acc n hs hc
    simp [count_label_decls] at hc
  | cons a rest ih =>
    intro idx acc n hs hc
    cases a
    case labelDecl m0 l0 =>
      by_cases hin : (acc.lookup m0).isSome
      · refine ⟨m0, ?_, Or.inl ⟨hin, ?_⟩⟩
        · simp only [discover_declared_labels, hin, if_pos]
        · simp [count_label_decls, List.countP_cons]
      · have hm0n : m0 ≠ n := fun he => hin (he ▸ hs)
        have hcr : 0 < count_label_decls rest n := by
          have : count_label_decls (Item.labelDecl m0 l0 :: rest) n =
              count_label_decls rest n + (if m0 == n then 1 else 0) := by
            simp [count_label_decls, List.countP_cons]
          rw [this, if_neg (by simpa using hm0n)] at hc
          omega
        have hs' : ((acc ++ [(m0, idx)]).lookup n).isSome := by
          rw [lookup_append]
          cases hl : acc.lookup n with
          | some v => simp [Option.orElse]
          | none => rw [hl] at hs; simp at hs
        obtain ⟨m, hm, hdisj⟩ := ih (idx + 1) (acc ++ [(m0, idx)]) n hs' hcr
        refine ⟨m, ?_, dup_report_lift acc m0 idx l0 rest m hdisj⟩
        simpa only [discover_declared_labels, hin, if_neg] using hm
    all_goals
      have hcr : 0 < count_label_decls rest n := by
        simpa [count_label_decls, List.countP_cons] using hc
      obtain ⟨m, hm, hdisj⟩ := ih (idx + 1) acc n hs hcr
      refine ⟨m, hm, ?_⟩
      rcases hdisj with ⟨h1, h2⟩ | h2
      · exact Or.inl ⟨h1, by simpa [count_label_decls, List.countP_cons] using h2⟩
      · exact Or.inr (by simpa [count_label_decls, List.countP_cons] using h2)

/-- If some name is declared at least twice in the items, discovery
reports a duplicate label, and the reported name is genuinely
duplicated. -/
theorem discover_err_of_two :
    ∀ (l : List Item) (idx : Nat) (acc : List (String × Nat)) (n : String),
      2 ≤ count_label_decls l n →
      ∃ m, discover_declared_labels l idx acc = .error (.duplicateLabel m) ∧
        ((acc.lookup m).isSome ∧ 0 < count_label_decls l m ∨
          2 ≤ count_label_decls l m) := by
  intro l
  induction l with
  | nil =>
    intro idx acc n hc
    simp [count_label_decls] at hc
  | cons a rest ih =>
    intro idx acc n hc
    cases a
    case labelDecl m0 l0 =>
      by_cases hin : (acc.lookup m0).isSome
      · refine ⟨m0, ?_, Or.inl ⟨hin, ?_⟩⟩
        · simp only [discover_declared_labels, hin, if_pos]
        · simp [count_label_decls, List.countP_cons]
      · have hcnt : count_label_decls (Item.labelDecl m0 l0 :: rest) n =
            count_label_decls rest n + (if m0 == n then 1 else 0) := by
          simp [count_label_decls, List.countP_cons]
        by_cases hm0n : m0 = n
        · have hs' : ((acc ++ [(m0, idx)]).lookup n).isSome := by
            rw [lookup_append]
            cases hl : acc.lookup n with
            | some v => simp [Option.orElse]
            | none =>
              subst hm0n
              simp [Option.orElse, List.lookup]
          have hcr : 0 < count_label_decls rest n := by
            rw [hcnt, if_pos (by simpa using hm0n)] at hc
            omega
          obtain ⟨m, hm, hdisj⟩ := discover_err_of_acc rest (idx + 1)
            (acc ++ [(m0, idx)]) n hs' hcr
          refine ⟨m, ?_, dup_report_lift acc m0 idx l0 rest m hdisj⟩
          simpa only [discover_declared_labels, hin, if_neg] using hm
        · have hcr : 2 ≤ count_label_decls rest n := by
            rw [hcnt, if_neg (by simpa using hm0n)] at hc
            omega
          obtain ⟨m, hm, hdisj⟩ := ih (idx + 1) (acc ++ [(m0, idx)]) n hcr
          refine ⟨m, ?_, dup_report_lift acc m0 idx l0 rest m hdisj⟩
          simpa only [discover_declared_labels, hin, if_neg] using hm
    all_goals
      have hcr : 2 ≤ count_label_decls rest n := by
        simpa [count_label_decls, List.countP_cons] using hc
      obtain ⟨m, hm, hdisj⟩ := ih (idx + 1) acc n hcr
      refine ⟨m, hm, ?_⟩
      rcases hdisj with ⟨h1, h2⟩ | h2
      · exact Or.inl ⟨h1, by simpa [count_label_decls, List.countP_cons] using h2⟩
      · exact Or.inr (by simpa [count_label_decls, List.countP_cons] using h2)

/-- Fuel-generic form: one unfolding of the engine with a failing
discovery pass short-circuits to the discovery error. -/
theorem asm_run_succ_discover_err (fuel : Nat) (py313 inFn : Bool)
    (items : List Item) (e : AsmErr) (h : discoverLabels items = .error e) :
    asm_run (fuel + 1) (.resolveC py313 items inFn) = .error e := by
  simp only [asm_run]
  rw [h]
  rfl

/-- A discovery failure is the whole of `resolve()`: the error propagates
before any later pass produces anything. -/
theorem resolve_of_discover_error (py313 inFn : Bool) (items : List Item)
    (e : AsmErr) (h : discoverLabels items = .error e) :
    resolve py313 items inFn = .error e :=
  asm_run_succ_discover_err 999999 py313 inFn items e h

/-- Claim C9: an input list declaring the same label name twice makes
`resolve()` fail with a duplicate-label error naming a genuinely
duplicated label, and the failure is already the label-discovery pass's
error — discovery itself returns it, so no later pass runs. -/
theorem claim_C9 (py313 inFn : Bool) (items : List Item) (n : String)
    (h2 : 2 ≤ count_label_decls items n) :
    ∃ m, 2 ≤ count_label_decls items m ∧
      discoverLabels items = .error (.duplicateLabel m) ∧
      resolve py313 items inFn = .error (.duplicateLabel m) := by
  obtain ⟨m, herr, hdisj⟩ := discover_err_of_two items 0 [] n h2
  have hcnt : 2 ≤ count_label_decls items m := by
    rcases hdisj with ⟨hs, _⟩ | h
    · simp [List.lookup] at hs
    · exact h
  exact ⟨m, hcnt, herr, resolve_of_discover_error py313 inFn items _ herr⟩

/-- A successful `List.lookup` exhibits a member. -/
theorem lookup_some_mem {β : Type} :
    ∀ (l : List (String × β)) (a : String) (b : β),
      l.lookup a = some b → (a, b) ∈ l := by
  intro l
  induction l with
  | nil => intro a b h; simp [List.lookup] at h
  | cons p rest ih =>
    intro a b h
    obtain ⟨k, v⟩ := p
    cases hk : a == k with
    | true =>
      have hak : a = k := eq_of_beq hk
      simp only [List.lookup, hk, Option.some.injEq] at h
      subst hak
      subst h
      exact List.mem_cons_self _ _
    | false =>
      simp only [List.lookup, hk] at h
      exact List.mem_cons_of_mem _ (ih a b h)

/-- The first-pass rewrite records, for every declared label, the stream
index at which that label's `Label` object was placed: the accumulated
decl map always points at the matching `Label` in the accumulated
stream. -/
theorem first_pass_declmap (py313 inFn : Bool) (labObjs : List (String × Nat)) :
    ∀ (items : List Item) (out : List Item) (dm : List (String × Nat)) (ctr : Nat),
      (∀ p ∈ dm, p.2 < out.length ∧
          out[p.2]? = some (Item.label (labLookup labObjs p.1))) →
      ∀ p ∈ (first_pass_go py313 inFn labObjs items (out, dm, ctr)).2.1,
        p.2 < (first_pass_go py313 inFn labObjs items (out, dm, ctr)).1.length ∧
        (first_pass_go py313 inFn labObjs items (out, dm, ctr)).1[p.2]? =
          some (Item.label (labLookup labObjs p.1)) := by
  intro items
  induction items with
  | nil =>
    intro out dm ctr hinv
    simpa [first_pass_go] using hinv
  | cons a rest ih =>
    intro out dm ctr hinv
    have hext : ∀ (δ : List Item) (p : String × Nat), p ∈ dm →
        p.2 < (out ++ δ).length ∧
          (out ++ δ)[p.2]? = some (Item.label (labLookup labObjs p.1)) := by
      intro δ p hp
      obtain ⟨h1, h2⟩ := hinv p hp
      refine ⟨by simp only [List.length_append]; omega, ?_⟩
      rw [List.getElem?_append, if_pos h1]
      exact h2
    cases a
    case labelDecl n l0 =>
      simp only [first_pass_go]
      apply ih
      intro p hp
      rcases List.mem_append.mp hp with hp1 | hp2
      · exact hext [Item.label (labLookup labObjs n)] p hp1
      · have hpe : p = (n, out.length) := by simpa using hp2
        subst hpe
        exact ⟨by simp, by simp⟩
    case instr nm ar l0 =>
      simp only [first_pass_go]
      by_cases h1 : (condJumpOps.contains nm && argIsStrLike ar) = true
      · rw [if_pos h1]
        apply ih
        intro p hp
        exact hext _ p hp
      · rw [if_neg h1]
        by_cases h2 : (uncondJumpFixed.contains nm && argIsStrLike ar) = true
        · rw [if_pos h2]
          apply ih
          intro p hp
          exact hext _ p hp
        · rw [if_neg h2]
          apply ih
          intro p hp
          exact hext _ p hp
    all_goals
      simp only [first_pass_go]
      apply ih
      intro p hp
      exact hext _ p hp

/-- The jump-patching pass acts pointwise: a successful run maps the entry
at position `k` through `patch_entry` at absolute position `pos + k`. -/
theorem second_pass_get (labObjs dm : List (String × Nat)) :
    ∀ (s : List Item) (pos : Nat) (p : List Item),
      second_pass_go labObjs dm pos s = .ok p →
      ∀ (k : Nat) (it : Item), s[k]? = some it →
        ∃ a, patch_entry labObjs dm (pos + k) it = .ok a ∧ p[k]? = some a := by
  intro s
  induction s with
  | nil => intro pos p h k it hk; simp at hk
  | cons x rest ih =>
    intro pos p h k it hk
    cases hpe : patch_entry labObjs dm pos x with
    | error e => simp [second_pass_go, hpe, Bind.bind, Except.bind] at h
    | ok a =>
      cases hrec : second_pass_go labObjs dm (pos + 1) rest with
      | error e => simp [second_pass_go, hpe, hrec, Bind.bind, Except.bind] at h
      | ok r =>
        have hp : p = a :: r := by
          simp only [second_pass_go, hpe, hrec, Bind.bind, Except.bind] at h
          exact (Except.ok.injEq _ _ ▸ congrArg id h).symm ▸ rfl
        subst hp
        cases k with
        | zero =>
          simp only [List.getElem?_cons_zero, Option.some.injEq] at hk
          subst hk
          exact ⟨a, by simpa using hpe, by simp⟩
        | succ k' =>
          simp only [List.getElem?_cons_succ] at hk
          obtain ⟨b, hb1, hb2⟩ := ih (pos + 1) r hrec k' it hk
          refine ⟨b, ?_, by simpa using hb2⟩
          rw [show pos + (k' + 1) = pos + 1 + k' from by omega]
          exact hb1

/-- Claim C2, amended: on the 3.13 path (where the calling-convention
normalizer leaves the rewritten stream unchanged), for an undirected
`JumpRef` placeholder at output index `r` whose target label's `Label`
object sits at output index `d`, the patched stream holds a
`JUMP_FORWARD` at `r` iff `d > r` and a `JUMP_BACKWARD` at `r` iff
`d < r` (on the 3.12 path the recorded index can go stale, see the
counterexample). -/
theorem claim_C2 (inFn : Bool) (labObjs : List (String × Nat)) (items : List Item)
    (s : List Item) (dm : List (String × Nat)) (ctr : Nat)
    (hfp : first_pass_go true inFn labObjs items ([], [], labObjs.length) = (s, dm, ctr))
    (p : List Item)
    (hpatch : second_pass_go labObjs dm 0 (normalize_seq true s) = .ok p)
    (r d : Nat) (nm : String) (ln : Option Int)
    (hr : s[r]? = some (.phJump nm ln))
    (hd : dm.lookup nm = some d) :
    s[d]? = some (.label (labLookup labObjs nm)) ∧
    p[d]? = some (.label (labLookup labObjs nm)) ∧
    (p[r]? = some (.instr "JUMP_FORWARD" (.label (labLookup labObjs nm)) ln) ↔ d > r) ∧
    (p[r]? = some (.instr "JUMP_BACKWARD" (.label (labLookup labObjs nm)) ln) ↔ d < r) := by
  have hnorm : normalize_seq true s = s := rfl
  rw [hnorm] at hpatch
  have hmem : (nm, d) ∈ dm := lookup_some_mem dm nm d hd
  have hinvres := first_pass_declmap true inFn labObjs items [] [] labObjs.length
    (by intro q hq; simp at hq)
  rw [hfp] at hinvres
  obtain ⟨hdlt, hsd⟩ := hinvres (nm, d) hmem
  obtain ⟨a, ha1, ha2⟩ := second_pass_get labObjs dm s 0 p hpatch d _ hsd
  have haa : a = Item.label (labLookup labObjs nm) := by
    simp only [patch_entry, Except.ok.injEq] at ha1
    exact ha1.symm
  subst haa
  obtain ⟨b, hb1, hb2⟩ := second_pass_get labObjs dm s 0 p hpatch r _ hr
  have hbb : b = Item.instr (if d > r then "JUMP_FORWARD" else "JUMP_BACKWARD")
      (.label (labLookup labObjs nm)) ln := by
    simp only [patch_entry, make_resolved_uncond_jump, hd, Nat.zero_add,
      Except.ok.injEq] at hb1
    exact hb1.symm
  subst hbb
  have hdr : d ≠ r := by
    intro he
    rw [he, hr] at hsd
    simp at hsd
  refine ⟨hsd, ha2, ?_, ?_⟩
  · by_cases hgt : d > r
    · simp [hb2, if_pos hgt, hgt]
    · rw [if_neg hgt] at hb2
      simp only [hb2]
      constructor
      · intro h
        simp at h
      · intro h; omega
  · by_cases hgt : d > r
    · rw [if_pos hgt] at hb2
      simp only [hb2]
      constructor
      · intro h
        simp at h
      · intro h; omega
    · rw [if_neg hgt] at hb2
      simp only [hb2]
      constructor
      · intro _; omega
      · intro _; trivial

/-- Claim C2, witness. -/
theorem claim_C2_witness :
    ([Item.phJump "x" (some 1), Item.label 0] : List Item)[1]? =
        some (Item.label (labLookup [("x", 0)] "x")) ∧
    ([Item.instr "JUMP_FORWARD" (.label 0) (some 1), Item.label 0] : List Item)[1]? =
        some (Item.label (labLookup [("x", 0)] "x")) ∧
    (([Item.instr "JUMP_FORWARD" (.label 0) (some 1), Item.label 0] : List Item)[0]? =
        some (.instr "JUMP_FORWARD" (.label (labLookup [("x", 0)] "x")) (some 1)) ↔ 1 > 0) ∧
    (([Item.instr "JUMP_FORWARD" (.label 0) (some 1), Item.label 0] : List Item)[0]? =
        some (.instr "JUMP_BACKWARD" (.label (labLookup [("x", 0)] "x")) (some 1)) ↔ 1 < 0) :=
  claim_C2 false [("x", 0)] [Item.jumpRef "x" 1, Item.labelDecl "x" 2]
    [Item.phJump "x" (some 1), Item.label 0] [("x", 1)] 1 rfl
    [Item.instr "JUMP_FORWARD" (.label 0) (some 1), Item.label 0] rfl
    0 1 "x" (some 1) rfl rfl

/-- Fact: `collect_locals` is the parameters followed by the per-item local-name
contributions, in order. -/
theorem collect_locals_flatMap :
    ∀ (body : List Item) (acc : List String),
      collect_locals acc body = acc ++ body.flatMap locals_contrib := by
  intro body
  induction body with
  | nil => intro acc; simp [collect_locals]
  | cons a rest ih =>
    intro acc
    have hstep : collect_locals acc (a :: rest) =
        collect_locals (acc ++ locals_contrib a) rest := by
      simp only [collect_locals, List.foldl_cons]
      congr 1
      cases a
      case instr nm ar l0 =>
        simp only [locals_contrib]
        split_ifs <;> simp
      all_goals simp [locals_contrib]
    rw [hstep, ih]
    simp

/-- Claim C3, counterexample: a name that is only the target of a
`DELETE_NAME` (never stored, not a parameter) is classified local by the
code, while the claim's local set (parameters plus store targets) omits
it — and the claim would therefore classify it global. -/
theorem claim_C3_counterexample :
    "x" ∈ collect_locals [] [Item.instr "DELETE_NAME" (.str "x") (some 1)] ∧
    "x" ∉ spec_local_names [] [Item.instr "DELETE_NAME" (.str "x") (some 1)] := by
  exact ⟨by decide, by decide⟩

/-- Claim C3, amended: the local set is the parameters together with every
name that is the target of a store *or delete* (`STORE_NAME` /
`DELETE_NAME` / `STORE_FAST` / `DELETE_FAST`); the global set is the names
referenced by a generic `LOAD_NAME` and not in the local set; these two
sets are disjoint and together cover every name referenced by a generic
name operation. -/
theorem claim_C3 (params : List String) (body : List Item) :
    (∀ n, n ∈ collect_locals params body ↔
        n ∈ params ∨ n ∈ body.flatMap locals_contrib) ∧
    (∀ n, ¬(n ∈ collect_locals params body ∧ n ∈ global_names params body)) ∧
    (∀ n, n ∈ generic_name_refs body →
        n ∈ collect_locals params body ∨ n ∈ global_names params body) := by
  refine ⟨?_, ?_, ?_⟩
  · intro n
    rw [collect_locals_flatMap]
    simp
  · rintro n ⟨hl, hg⟩
    simp only [global_names, List.mem_filter] at hg
    have hng : n ∉ collect_locals params body := by simpa using hg.2
    exact hng hl
  · intro n hn
    by_cases hl : n ∈ collect_locals params body
    · exact Or.inl hl
    · right
      simp only [generic_name_refs, List.mem_flatMap] at hn
      obtain ⟨it, hit, hnit⟩ := hn
      cases it
      case _ nm ar l0 =>
        have hnit2 : n ∈ (if ((nm == "LOAD_NAME" || nm == "STORE_NAME" ||
            nm == "DELETE_NAME") && argIsStrLike ar) = true
            then [as_name ar] else []) := hnit
        by_cases hc : ((nm == "LOAD_NAME" || nm == "STORE_NAME" ||
            nm == "DELETE_NAME") && argIsStrLike ar) = true
        · rw [if_pos hc] at hnit2
          simp only [List.mem_singleton] at hnit2
          subst hnit2
          simp only [Bool.and_eq_true, Bool.or_eq_true, beq_iff_eq] at hc
          rcases hc with ⟨(hload | hstore) | hdel, hstr⟩
          · -- LOAD_NAME and not local ⇒ global
            simp only [global_names, List.mem_filter]
            refine ⟨?_, ?_⟩
            · simp only [load_name_refs, List.mem_flatMap]
              exact ⟨_, hit, by simp [hload, hstr]⟩
            · simpa using hl
          · -- STORE_NAME would have been collected local: contradiction
            exfalso
            apply hl
            rw [collect_locals_flatMap]
            refine List.mem_append.mpr (Or.inr (List.mem_flatMap.mpr ⟨_, hit, ?_⟩))
            simp [locals_contrib, hstore, hstr]
          · exfalso
            apply hl
            rw [collect_locals_flatMap]
            refine List.mem_append.mpr (Or.inr (List.mem_flatMap.mpr ⟨_, hit, ?_⟩))
            simp [locals_contrib, hdel, hstr]
        · rw [if_neg hc] at hnit2
          simp at hnit2
      all_goals simp at hnit

/-- Claim C3, witness. -/
theorem claim_C3_witness :
    "y" ∈ collect_locals ["p"] [Item.instr "LOAD_NAME" (.str "y") (some 1)] ∨
    "y" ∈ global_names ["p"] [Item.instr "LOAD_NAME" (.str "y") (some 1)] :=
  (claim_C3 ["p"] [Item.instr "LOAD_NAME" (.str "y") (some 1)]).2.2 "y" (by decide)

/-- Association lookup succeeds on a member when the keys are distinct. -/
theorem lookup_of_mem_nodup {β : Type} :
    ∀ (l : List (String × β)), (l.map Prod.fst).Nodup →
      ∀ (a : String) (b : β), (a, b) ∈ l → l.lookup a = some b := by
  intro l
  induction l with
  | nil => intro _ a b h; cases h
  | cons p rest ih =>
    intro hnd a b h
    obtain ⟨k, v⟩ := p
    simp only [List.map_cons, List.nodup_cons] at hnd
    rcases List.mem_cons.mp h with he | ht
    · rw [Prod.mk.injEq] at he
      obtain ⟨h1, h2⟩ := he
      subst h1
      subst h2
      simp [List.lookup]
    · have hak : ¬(a == k) = true := by
        intro hb
        have hae : a = k := eq_of_beq hb
        subst hae
        exact hnd.1 (List.mem_map_of_mem Prod.fst ht)
      show (match a == k with
        | true => some v
        | false => rest.lookup a) = some b
      cases hb : a == k with
      | true => exact absurd hb hak
      | false => exact ih hnd.2 a b ht

/-- The shared coercer body satisfies the operator-resolver contract for
any family whose tables have distinct keys, uppercase canonical names,
symbol targets that are member names, and injective member values. -/
theorem coercer_ok_of (family : String) (symMap : List (String × String))
    (members : List (String × Nat))
    (hndm : (members.map Prod.fst).Nodup)
    (hnds : (symMap.map Prod.fst).Nodup)
    (hup : ∀ p ∈ symMap, pyUpper p.2 = p.2)
    (hsym : ∀ p ∈ symMap, (members.lookup p.2).isSome)
    (hcons : ∀ p ∈ symMap, ∀ q ∈ members, pyUpper p.1 = q.1 →
        members.lookup (pyUpper p.2) = some q.2)
    (hfind : ∀ q ∈ members,
        (members.find? fun p => (p.2 : Int) == (q.2 : Int)).map Prod.snd =
          some q.2) :
    coercer_ok family symMap members := by
  refine ⟨?_, ?_, ?_, ?_, ?_⟩
  · intro p hp
    cases hv : members.lookup p.2 with
    | none => exact absurd (hv ▸ hsym p hp) (by simp)
    | some v =>
      refine ⟨v, rfl, ?_⟩
      have hls : symMap.lookup p.1 = some p.2 := lookup_of_mem_nodup symMap hnds p.1 p.2 hp
      simp only [coerce_generic, hls, Option.getD_some, hup p hp, hv]
  · intro q hq s hs
    cases hls : symMap.lookup s with
    | none =>
      have hm : members.lookup q.1 = some q.2 := lookup_of_mem_nodup members hndm q.1 q.2 hq
      simp only [coerce_generic, hls, Option.getD_none, hs, hm]
    | some t =>
      have hmem : (s, t) ∈ symMap := lookup_some_mem symMap s t hls
      have := hcons (s, t) hmem q hq hs
      simp only [coerce_generic, hls, Option.getD_some, this]
  · intro q hq
    cases hf : members.find? fun p => (p.2 : Int) == (q.2 : Int) with
    | none => exact absurd (hf ▸ hfind q hq) (by simp)
    | some pp =>
      have : pp.2 = q.2 := by
        have := hfind q hq
        rw [hf] at this
        simpa using this
      simp only [coerce_generic, hf, this]
  · intro s h1 h2
    simp only [coerce_generic, h1, Option.getD_none, h2]
  · intro n h
    simp only [coerce_generic, h]

/-- Claim C10: all four operator families — arithmetic/bitwise
(`BINARY_OP`), ordering comparison (`COMPARE_OP`), identity (`IS_OP`) and
membership (`CONTAINS_OP`) — map every valid spelling (exact symbol,
member name in any letter case, or in-range integer code) to the canonical
value, and fail with an error naming the family and the input exactly on
an unrecognized spelling or out-of-range code. -/
theorem claim_C10 :
    coercer_ok "BINARY_OP" binarySymbolMap binaryOpMembers ∧
    coercer_ok "COMPARE_OP" compareSymbolMap compareMembers ∧
    coercer_ok "IS_OP" isSymbolMap isOpMembers ∧
    coercer_ok "CONTAINS_OP" containsSymbolMap containsOpMembers :=
  ⟨coercer_ok_of _ _ _ (by decide) (by decide) (by decide) (by decide)
      (by decide) (by decide),
   coercer_ok_of _ _ _ (by decide) (by decide) (by decide) (by decide)
      (by decide) (by decide),
   coercer_ok_of _ _ _ (by decide) (by decide) (by decide) (by decide)
      (by decide) (by decide),
   coercer_ok_of _ _ _ (by decide) (by decide) (by decide) (by decide)
      (by decide) (by decide)⟩

/-- Claim C10, witness. -/
theorem claim_C10_witness :
    coerce_binary_op (.str "mUlTiPlY") = .ok 5 ∧
    (∃ v, isOpMembers.lookup "IS_NOT" = some v ∧
      coerce_is_op (.str "is not") = .ok v) :=
  ⟨claim_C10.1.2.1 ("MULTIPLY", 5) (by decide) "mUlTiPlY" (by decide),
   claim_C10.2.2.1.1 ("is not", "IS_NOT") (by decide)⟩

/-- Claim C9, witness. -/
theorem claim_C9_witness :
    ∃ m, 2 ≤ count_label_decls [Item.labelDecl "x" 1, Item.labelDecl "x" 2] m ∧
      discoverLabels [Item.labelDecl "x" 1, Item.labelDecl "x" 2] =
        .error (.duplicateLabel m) ∧
      resolve true [Item.labelDecl "x" 1, Item.labelDecl "x" 2] false =
        .error (.duplicateLabel m) :=
  claim_C9 true false [Item.labelDecl "x" 1, Item.labelDecl "x" 2] "x" (by decide)

end Paxy
